import Mathlib

/-!
Shallow embedding of the interactive MCP client in
`examples/mcp/client/main.py`.

The embedded parts are the pure logic of that script:

* `build_arguments_from_schema` (lines 13-70): per-parameter prompting,
  required/optional policy and type coercion (`buildArgumentsFromSchema`,
  `promptParam`, `coerce`);
* the URI-template resolver inside `interactive_tool_client`
  (lines 240-261): placeholder extraction with the regex `{(\w+)}`,
  prompting, and literal substitution (`findAllPlaceholders`,
  `collectLoop`, `substUri`, `resolveTemplate`);
* the ordinal dispatcher (lines 152-167 and the three branches)
  (`dispatchChoice`);
* tool-result rendering and loop continuation (lines 183-201, 286-290)
  (`renderToolResult`, `toolInvocationStep`);
* the capability-listing step at the top of the loop (lines 96-149)
  (`listCapabilitiesStep`, `menuLines`).

Console prompts are modelled by an explicit list of input lines, consumed
one line per `input()` call; an unbounded re-prompt loop that never gets a
usable line is modelled by returning `none` (the Python loop does not
return either).  External library calls (`json.loads`) are abstracted as a
parameter; the Python builtins `int()`, `float()`, `str.strip()`,
`str.lower()`, `str.replace()` and `re.findall` are embedded directly for
the decimal/ASCII forms exercised here (Python's underscore digit grouping
and non-ASCII word characters are out of scope).
-/

/-- Python `str.strip()`: drop whitespace from both ends. -/
def pyStrip (s : String) : String :=
  (((s.data.dropWhile Char.isWhitespace).reverse.dropWhile Char.isWhitespace).reverse).asString

/-- Python `str.lower()` (ASCII). -/
def pyLower (s : String) : String :=
  (s.data.map Char.toLower).asString

/-- Value of a list of decimal digit characters. -/
def digitsToNat (ds : List Char) : Nat :=
  ds.foldl (fun a c => 10 * a + (c.toNat - 48)) 0

/-- Python `int(s)` on a stripped string: optional sign followed by a
non-empty run of decimal digits; anything else raises `ValueError`,
modelled as `none`. -/
def pyParseInt (s : String) : Option Int :=
  match s.data with
  | [] => none
  | '+' :: ds =>
      if ds ≠ [] ∧ ds.all Char.isDigit then some (digitsToNat ds : Int) else none
  | '-' :: ds =>
      if ds ≠ [] ∧ ds.all Char.isDigit then some (-(digitsToNat ds : Int)) else none
  | ds =>
      if ds.all Char.isDigit then some (digitsToNat ds : Int) else none

/-- Optional exponent tail of a Python float literal (`e`/`E`, optional
sign, digits).  The mantissa value is `m`. -/
def parseExpTail (l : List Char) (m : ℚ) : Option ℚ :=
  match l with
  | [] => some m
  | c :: r =>
      if c = 'e' ∨ c = 'E' then
        match r with
        | '+' :: ds =>
            if ds ≠ [] ∧ ds.all Char.isDigit then some (m * (10 : ℚ) ^ digitsToNat ds) else none
        | '-' :: ds =>
            if ds ≠ [] ∧ ds.all Char.isDigit then some (m / (10 : ℚ) ^ digitsToNat ds) else none
        | ds =>
            if ds ≠ [] ∧ ds.all Char.isDigit then some (m * (10 : ℚ) ^ digitsToNat ds) else none
      else none

/-- Unsigned part of a Python float literal: `digits`, `digits.digits`,
`digits.` or `.digits`, with an optional exponent. -/
def parseUnsigned (l : List Char) : Option ℚ :=
  match l.dropWhile Char.isDigit with
  | '.' :: r2 =>
      let ip := l.takeWhile Char.isDigit
      let fp := r2.takeWhile Char.isDigit
      if ip = [] ∧ fp = [] then none
      else parseExpTail (r2.dropWhile Char.isDigit)
        ((digitsToNat ip : ℚ) + (digitsToNat fp : ℚ) / (10 : ℚ) ^ fp.length)
  | r1 =>
      let ip := l.takeWhile Char.isDigit
      if ip = [] then none else parseExpTail r1 (digitsToNat ip : ℚ)

/-- Python `float(s)` on a stripped string, for finite decimal literals.
The parsed value is kept as an exact rational (the claims under study
concern which strings parse and the decimal value obtained, not IEEE
rounding). -/
def pyParseFloat (s : String) : Option ℚ :=
  match s.data with
  | '+' :: l => parseUnsigned l
  | '-' :: l => (parseUnsigned l).map Neg.neg
  | l => parseUnsigned l

/-- A coerced argument value, as produced by the type-conversion block of
`build_arguments_from_schema` (main.py lines 54-64).  `α` is the result
type of the external structured-data parser (`json.loads`). -/
inductive PyValue (α : Type) where
  | vint (n : Int)
  | vfloat (q : ℚ)
  | vbool (b : Bool)
  | vjson (j : α)
  | vstr (s : String)
deriving DecidableEq

/-- Type conversion of one non-empty input string (main.py lines 54-64).
`jp` is the external `json.loads`; `none` models the raised
`ValueError`/`JSONDecodeError` that the caller catches. -/
def coerce {α : Type} (jp : String → Option α) (t : String) (s : String) :
    Option (PyValue α) :=
  if t = "integer" then (pyParseInt s).map PyValue.vint
  else if t = "number" then (pyParseFloat s).map PyValue.vfloat
  else if t = "boolean" then
    some (PyValue.vbool ((["true", "yes", "1", "y"] : List String).contains (pyLower s)))
  else if t = "object" ∨ t = "array" then (jp s).map PyValue.vjson
  else some (PyValue.vstr s)

/-- The prompt loop for one parameter (main.py lines 41-68).  Consumes
input lines until one produces an outcome: `some (none, rest)` models the
`break` that skips an optional parameter on empty input, `some (some v,
rest)` a successfully coerced value, and `none` models the loop still
re-prompting when the supplied lines run out (the Python loop never
returns in that situation either). -/
def promptParam {α : Type} (jp : String → Option α) (t : String) (isReq : Bool) :
    List String → Option (Option (PyValue α) × List String)
  | [] => none
  | raw :: rest =>
      if pyStrip raw = "" then
        if isReq then promptParam jp t isReq rest
        else some (none, rest)
      else
        match coerce jp t (pyStrip raw) with
        | some v => some (some v, rest)
        | none => promptParam jp t isReq rest

/-- Declared information for one parameter (`param_info`): the optional
`"type"` and `"description"` entries of the property's schema dict. -/
structure ParamInfo where
  ptype : Option String
  pdescription : Option String
deriving DecidableEq

/-- The parts of a tool's `inputSchema` dict that
`build_arguments_from_schema` reads: the optional `"properties"` entry (an
insertion-ordered mapping, so a list of name/info pairs) and the
`"required"` list (`.get("required", [])`, so `[]` when absent).  An empty
schema dict has `properties = none`, which also covers the
`not input_schema` test. -/
structure InputSchema where
  properties : Option (List (String × ParamInfo))
  required : List String
deriving DecidableEq

/-- Insertion into a Python dict rendered as an ordered association list:
an existing key keeps its position and gets the new value, a new key is
appended. -/
def pyDictInsert {β : Type} : List (String × β) → String → β → List (String × β)
  | [], k, v => [(k, v)]
  | (k0, v0) :: rest, k, v =>
      if k0 = k then (k0, v) :: rest else (k0, v0) :: pyDictInsert rest k v

/-- The `for param_name, param_info in properties.items()` loop of
`build_arguments_from_schema` (lines 28-68), threading the remaining input
lines through the per-parameter prompt loop. -/
def buildLoop {α : Type} (jp : String → Option α) :
    List (String × ParamInfo) → List String → List String →
    List (String × PyValue α) → Option (List (String × PyValue α) × List String)
  | [], _, inputs, acc => some (acc, inputs)
  | p :: ps, required, inputs, acc =>
      match promptParam jp (p.2.ptype.getD "string") (required.contains p.1) inputs with
      | none => none
      | some (none, rest) => buildLoop jp ps required rest acc
      | some (some v, rest) => buildLoop jp ps required rest (pyDictInsert acc p.1 v)

/-- `build_arguments_from_schema` (main.py lines 13-70): returns the
argument mapping together with the unconsumed input lines. -/
def buildArgumentsFromSchema {α : Type} (jp : String → Option α)
    (schema : InputSchema) (inputs : List String) :
    Option (List (String × PyValue α) × List String) :=
  match schema.properties with
  | none => some ([], inputs)
  | some props => buildLoop jp props schema.required inputs []

/-- A word character of the regex `\w` (ASCII range). -/
def isWordChar (c : Char) : Bool :=
  c.isAlphanum || c = '_'

/-- Core of `re.findall(r'{(\w+)}', template)` (main.py line 241): a
left-to-right non-overlapping scan emitting one entry per occurrence of a
brace-enclosed non-empty run of word characters.  The second argument is
`some buf` while inside a candidate `\x7b...`, with the name collected in
reverse in `buf`. -/
def scanPH : List Char → Option (List Char) → List (List Char)
  | [], _ => []
  | c :: rest, none =>
      if c = '\x7b' then scanPH rest (some []) else scanPH rest none
  | c :: rest, some buf =>
      if c = '\x7d' then
        if buf = [] then scanPH rest none
        else buf.reverse :: scanPH rest none
      else if isWordChar c then scanPH rest (some (c :: buf))
      else if c = '\x7b' then scanPH rest (some [])
      else scanPH rest none

/-- `re.findall(r'{(\w+)}', t)`: the list of placeholder occurrences, in
template order, duplicates included. -/
def findAllPlaceholders (t : String) : List String :=
  (scanPH t.data none).map List.asString

/-- The template prompting loop (main.py lines 244-252): one `input()` per
placeholder occurrence; an empty stripped value breaks out, leaving the
values collected so far.  A missing input line reads as empty. -/
def collectLoop : List String → List String → List (String × String) →
    List (String × String)
  | [], _, acc => acc
  | p :: ps, inputs, acc =>
      if pyStrip (inputs.headD "") = "" then acc
      else collectLoop ps inputs.tail (pyDictInsert acc p (pyStrip (inputs.headD "")))

/-- One step of Python `str.replace(pat, rep)`: if `pat` is a prefix of
the list, `some` of the remainder after it. -/
def stripPre : List Char → List Char → Option (List Char)
  | [], l => some l
  | _ :: _, [] => none
  | p :: ps, c :: cs => if p = c then stripPre ps cs else none

/-- Python `str.replace` on character lists: left-to-right,
non-overlapping, the replacement is not rescanned.  Each step consumes at
least one character, so `fuel` equal to the subject length makes the
`fuel = 0` branch unreachable. -/
def replaceFuel (pat rep : List Char) : Nat → List Char → List Char
  | 0, l => l
  | _ + 1, [] => []
  | fuel + 1, c :: rest =>
      match pat, stripPre pat (c :: rest) with
      | _ :: _, some remainder => rep ++ replaceFuel pat rep fuel remainder
      | _, _ => c :: replaceFuel pat rep fuel rest

/-- Python `s.replace(pat, rep)` (for the non-empty patterns used here). -/
def stringReplace (s pat rep : String) : String :=
  (replaceFuel pat.data rep.data s.data.length s.data).asString

/-- The substitution loop (main.py lines 259-261): successive literal
replacement of `\x7bparam\x7d` by the collected value, in dict insertion
order. -/
def substUri (t : String) (pv : List (String × String)) : String :=
  pv.foldl (fun uri kv => stringReplace uri ("\x7b" ++ kv.1 ++ "\x7d") kv.2) t

/-- The whole templated-resource resolution (main.py lines 240-261):
extract occurrences, prompt, and either fail (`continue` back to the
listing, no `read_resource` issued) when fewer values were collected than
occurrences, or return the substituted address. -/
def resolveTemplate (t : String) (inputs : List String) : Option String :=
  let params := findAllPlaceholders t
  let pv := collectLoop params inputs []
  if pv.length = params.length then some (substUri t pv) else none

/-- Outcome of the selection prompt (main.py lines 152-167 and the three
branches): exit, one of the three invocation kinds (with a 0-based index
into its own collection), an out-of-range ordinal (line 163), or
non-numeric input (the `ValueError` handler at line 292). -/
inductive Selection where
  | exitLoop
  | callTool (i : Nat)
  | readResource (i : Nat)
  | readTemplate (i : Nat)
  | invalidSelection
  | invalidInput
deriving DecidableEq

/-- The dispatcher (main.py lines 152-167, 202-234): strip the choice,
exit on `"0"` or empty input, parse the ordinal, validate it against the
current totals and select the branch by range membership. -/
def dispatchChoice (numTools numResources numTemplates : Nat) (raw : String) :
    Selection :=
  if pyStrip raw = "0" ∨ pyStrip raw = "" then Selection.exitLoop
  else
    match pyParseInt (pyStrip raw) with
    | none => Selection.invalidInput
    | some n =>
        if n - 1 < 0 ∨ (numTools + numResources + numTemplates : Int) ≤ n - 1 then
          Selection.invalidSelection
        else if n - 1 < (numTools : Int) then
          Selection.callTool (n - 1).toNat
        else if n - 1 < (numTools : Int) + numResources then
          Selection.readResource ((n - 1).toNat - numTools)
        else
          Selection.readTemplate ((n - 1).toNat - numTools - numResources)

/-- A content item of a tool result, as the renderer distinguishes them
(`hasattr(item, 'text')` or not, main.py lines 190-194). -/
inductive ContentItem where
  | textItem (s : String)
  | otherItem (s : String)
deriving DecidableEq

/-- Rendering of one content item (main.py lines 191-194). -/
def renderItem : ContentItem → String
  | ContentItem.textItem s => s
  | ContentItem.otherItem s => s

/-- A tool-call result: content items plus the server's error flag. -/
structure ToolCallResult where
  content : List ContentItem
  isError : Bool
deriving DecidableEq

/-- The error indicator printed when `result.isError` is set
(main.py line 199). -/
def errorIndicatorLine : String := "⚠️  Tool returned an error"

/-- The lines printed for a tool result (main.py lines 189-199): the
content items (or a placeholder when there are none), then the error
indicator iff the result's error flag is set. -/
def renderToolResult (r : ToolCallResult) : List String :=
  (if r.content = [] then ["(No content returned)"] else r.content.map renderItem)
    ++ (if r.isError then [errorIndicatorLine] else [])

/-- What happens to the session loop after a branch completes. -/
inductive LoopControl where
  | exitLoop
  | nextIteration
deriving DecidableEq

/-- The post-invocation prompt (main.py lines 287-290): quit on `q`,
otherwise go back to the listing. -/
def afterInvocation (contInput : String) : LoopControl :=
  if pyLower (pyStrip contInput) = "q" then LoopControl.exitLoop
  else LoopControl.nextIteration

/-- The tool-call branch after the call returns (main.py lines 183-201,
286-290): render the result, then decide loop continuation from the
follow-up prompt alone. -/
def toolInvocationStep (r : ToolCallResult) (contInput : String) :
    List String × LoopControl :=
  (renderToolResult r, afterInvocation contInput)

/-- Outcome of the capability-listing step at the top of one loop
iteration (main.py lines 96-149): either the loop breaks with a message,
or the menu is shown and a selection will be read. -/
inductive IterationOutcome where
  | terminated (outputs : List String)
  | menuShown (outputs : List String)
deriving DecidableEq

/-- Whether the listing step ended the session. -/
def IterationOutcome.isTerminated : IterationOutcome → Bool
  | IterationOutcome.terminated _ => true
  | IterationOutcome.menuShown _ => false

/-- Message printed when the fresh listing is empty (main.py line 108). -/
def noCapabilitiesMessage : String := "❌ No tools or resources available on the server."

/-- The menu lines (main.py lines 111-149): tools numbered from 1,
resources continuing after the tools, templates after both, and the exit
entry. -/
def menuLines (tools resources templates : List String) : List String :=
  ["🔧 Available Tools:"]
    ++ (if tools = [] then ["(No tools available)"]
        else tools.enum.map (fun p => toString (p.1 + 1) ++ ". " ++ p.2))
    ++ ["📦 Available Resources:"]
    ++ (if resources = [] then ["(No direct resources available)"]
        else resources.enum.map (fun p => toString (p.1 + tools.length + 1) ++ ". " ++ p.2))
    ++ ["📋 Available Resource Templates:"]
    ++ (if templates = [] then ["(No resource templates available)"]
        else templates.enum.map
          (fun p => toString (p.1 + tools.length + resources.length + 1) ++ ". " ++ p.2))
    ++ ["0. Exit"]

/-- The capability-listing step (main.py lines 96-149): a fresh listing
with nothing offered breaks out of the loop before any menu or prompt;
otherwise the menu is rendered.  The lists hold the capability names. -/
def listCapabilitiesStep (tools resources templates : List String) :
    IterationOutcome :=
  if tools = [] ∧ resources = [] ∧ templates = [] then
    IterationOutcome.terminated [noCapabilitiesMessage]
  else
    IterationOutcome.menuShown (menuLines tools resources templates)

/-! ### Helper lemmas about the embedded dict and loops -/

theorem pyDictInsert_self {β : Type} (acc : List (String × β)) (k : String) (v : β) :
    (k, v) ∈ pyDictInsert acc k v := by
  induction acc with
  | nil => simp [pyDictInsert]
  | cons hd tl ih =>
      obtain ⟨k0, v0⟩ := hd
      by_cases hk : k0 = k
      · subst hk; simp [pyDictInsert]
      · simp [pyDictInsert, hk, ih]

theorem pyDictInsert_mem_of {β : Type} {acc : List (String × β)} {k a : String} {v b : β}
    (h : (a, b) ∈ pyDictInsert acc k v) : (a, b) ∈ acc ∨ a = k := by
  induction acc with
  | nil =>
      simp [pyDictInsert] at h
      simp [h]
  | cons hd tl ih =>
      obtain ⟨k0, v0⟩ := hd
      by_cases hk : k0 = k
      · subst hk
        simp only [pyDictInsert, if_pos rfl] at h
        rcases List.mem_cons.mp h with h1 | h1
        · right; exact congrArg Prod.fst h1
        · left; exact List.mem_cons_of_mem _ h1
      · simp only [pyDictInsert, if_neg hk] at h
        rcases List.mem_cons.mp h with h1 | h1
        · left; exact h1 ▸ List.mem_cons_self _ _
        · rcases ih h1 with h2 | h2
          · left; exact List.mem_cons_of_mem _ h2
          · right; exact h2

theorem pyDictInsert_preserves_key {β : Type} {acc : List (String × β)} {a : String}
    {b : β} (k : String) (v : β) (h : (a, b) ∈ acc) :
    ∃ w, (a, w) ∈ pyDictInsert acc k v := by
  induction acc with
  | nil => simp at h
  | cons hd tl ih =>
      obtain ⟨k0, v0⟩ := hd
      by_cases hk : k0 = k
      · subst hk
        simp only [pyDictInsert, if_pos rfl]
        rcases List.mem_cons.mp h with h1 | h1
        · have ha : a = k0 := congrArg Prod.fst h1
          exact ⟨v, by simp [ha]⟩
        · exact ⟨b, List.mem_cons_of_mem _ h1⟩
      · simp only [pyDictInsert, if_neg hk]
        rcases List.mem_cons.mp h with h1 | h1
        · exact ⟨b, h1 ▸ List.mem_cons_self _ _⟩
        · obtain ⟨w, hw⟩ := ih h1
          exact ⟨w, List.mem_cons_of_mem _ hw⟩

theorem pyDictInsert_length_le {β : Type} (acc : List (String × β)) (k : String) (v : β) :
    (pyDictInsert acc k v).length ≤ acc.length + 1 := by
  induction acc with
  | nil => simp [pyDictInsert]
  | cons hd tl ih =>
      obtain ⟨k0, v0⟩ := hd
      by_cases hk : k0 = k
      · simp [pyDictInsert, hk]
      · simp only [pyDictInsert, if_neg hk, List.length_cons]
        omega

theorem pyDictInsert_length_fresh {β : Type} (acc : List (String × β)) (k : String)
    (v : β) (h : ∀ w, (k, w) ∉ acc) :
    (pyDictInsert acc k v).length = acc.length + 1 := by
  induction acc with
  | nil => simp [pyDictInsert]
  | cons hd tl ih =>
      obtain ⟨k0, v0⟩ := hd
      have hk : k0 ≠ k := by
        intro hk; exact h v0 (hk ▸ List.mem_cons_self _ _)
      simp only [pyDictInsert, if_neg hk, List.length_cons]
      rw [ih (fun w hw => h w (List.mem_cons_of_mem _ hw))]

theorem headD_eq_getD_zero (l : List String) : l.headD "" = l.getD 0 "" := by
  cases l <;> rfl

theorem tail_getD (l : List String) (i : Nat) : l.tail.getD i "" = l.getD (i + 1) "" := by
  cases l <;> simp [List.getD]

theorem collectLoop_length_of_nodup (params : List String) :
    ∀ (inputs : List String) (acc : List (String × String)),
    params.Nodup →
    (∀ p ∈ params, ∀ w, (p, w) ∉ acc) →
    (∀ i, i < params.length → pyStrip (inputs.getD i "") ≠ "") →
    (collectLoop params inputs acc).length = acc.length + params.length := by
  induction params with
  | nil => intro inputs acc _ _ _; simp [collectLoop]
  | cons p ps ih =>
      intro inputs acc hnd hdisj hne
      have h0 : pyStrip (inputs.headD "") ≠ "" := by
        rw [headD_eq_getD_zero]; exact hne 0 (by simp)
      simp only [collectLoop, if_neg h0]
      have hfresh : ∀ w, (p, w) ∉ acc := hdisj p (List.mem_cons_self _ _)
      have hdisj' : ∀ q ∈ ps, ∀ w,
          (q, w) ∉ pyDictInsert acc p (pyStrip (inputs.headD "")) := by
        intro q hq w hmem
        rcases pyDictInsert_mem_of hmem with hin | heq
        · exact hdisj q (List.mem_cons_of_mem _ hq) w hin
        · exact (List.nodup_cons.mp hnd).1 (heq ▸ hq)
      have hne' : ∀ i, i < ps.length → pyStrip (inputs.tail.getD i "") ≠ "" := by
        intro i hi
        rw [tail_getD]
        exact hne (i + 1) (by simpa using Nat.succ_lt_succ hi)
      rw [ih inputs.tail _ (List.nodup_cons.mp hnd).2 hdisj' hne',
        pyDictInsert_length_fresh acc p _ hfresh]
      simp [Nat.add_assoc, Nat.add_comm 1]

theorem collectLoop_length_lt (params : List String) :
    ∀ (inputs : List String) (acc : List (String × String)) (i : Nat),
    i < params.length → pyStrip (inputs.getD i "") = "" →
    (collectLoop params inputs acc).length < acc.length + params.length := by
  induction params with
  | nil => intro inputs acc i hi; simp at hi
  | cons p ps ih =>
      intro inputs acc i hi he
      by_cases h0 : pyStrip (inputs.headD "") = ""
      · simp only [collectLoop, if_pos h0, List.length_cons]
        omega
      · simp only [collectLoop, if_neg h0]
        have hi0 : i ≠ 0 := by
          intro h
          subst h
          rw [headD_eq_getD_zero] at h0
          exact h0 he
        have hi' : i - 1 < ps.length := by
          simp only [List.length_cons] at hi
          omega
        have he' : pyStrip (inputs.tail.getD (i - 1) "") = "" := by
          rw [tail_getD]
          have : i - 1 + 1 = i := by omega
          rw [this]
          exact he
        have hrec := ih inputs.tail (pyDictInsert acc p (pyStrip (inputs.headD ""))) (i - 1) hi' he'
        have hins := pyDictInsert_length_le acc p (pyStrip (inputs.headD ""))
        simp only [List.length_cons]
        omega

theorem promptParam_required_some {α : Type} (jp : String → Option α) (t : String) :
    ∀ (inputs : List String) (o : Option (PyValue α)) (rest : List String),
    promptParam jp t true inputs = some (o, rest) → ∃ v, o = some v := by
  intro inputs
  induction inputs with
  | nil => intro o rest h; simp [promptParam] at h
  | cons raw rs ih =>
      intro o rest h
      by_cases hs : pyStrip raw = ""
      · simp only [promptParam, if_pos hs, if_pos rfl] at h
        exact ih o rest h
      · simp only [promptParam, if_neg hs] at h
        cases hc : coerce jp t (pyStrip raw) with
        | some v =>
            rw [hc] at h
            simp only [Option.some_inj, Prod.mk.injEq] at h
            exact ⟨v, h.1.symm⟩
        | none =>
            rw [hc] at h
            exact ih o rest h

theorem buildLoop_spec {α : Type} (jp : String → Option α)
    (props : List (String × ParamInfo)) :
    ∀ (required inputs : List String) (acc args : List (String × PyValue α))
      (leftover : List String),
    buildLoop jp props required inputs acc = some (args, leftover) →
    (∀ name v, (name, v) ∈ args →
        (∃ w, (name, w) ∈ acc) ∨ name ∈ props.map Prod.fst)
    ∧ (∀ name info, (name, info) ∈ props → required.contains name = true →
        ∃ v, (name, v) ∈ args)
    ∧ (∀ name v, (name, v) ∈ acc → ∃ w, (name, w) ∈ args) := by
  induction props with
  | nil =>
      intro required inputs acc args leftover h
      simp only [buildLoop, Option.some_inj, Prod.mk.injEq] at h
      obtain ⟨h1, _⟩ := h
      subst h1
      exact ⟨fun name v hm => Or.inl ⟨v, hm⟩, by simp, fun name v hm => ⟨v, hm⟩⟩
  | cons p ps ih =>
      intro required inputs acc args leftover h
      simp only [buildLoop] at h
      cases hp : promptParam jp (p.2.ptype.getD "string") (required.contains p.1) inputs with
      | none => rw [hp] at h; simp at h
      | some res =>
          obtain ⟨o, rest⟩ := res
          rw [hp] at h
          cases o with
          | none =>
              have hreq : required.contains p.1 = false := by
                by_contra hh
                have hcon : required.contains p.1 = true := by
                  cases hcc : required.contains p.1
                  · exact absurd hcc hh
                  · rfl
                rw [hcon] at hp
                obtain ⟨v, hv⟩ := promptParam_required_some jp _ inputs none rest hp
                simp at hv
              obtain ⟨c1, c2, c3⟩ := ih required rest acc args leftover h
              refine ⟨?_, ?_, c3⟩
              · intro name v hm
                rcases c1 name v hm with h' | h'
                · exact Or.inl h'
                · exact Or.inr (by simp [h'])
              · intro name info hmem hcon
                rcases List.mem_cons.mp hmem with heq | hmem'
                · exfalso
                  have hn : name = p.1 := congrArg Prod.fst heq
                  rw [hn, hreq] at hcon
                  exact Bool.false_ne_true hcon
                · exact c2 name info hmem' hcon
          | some v =>
              obtain ⟨c1, c2, c3⟩ := ih required rest (pyDictInsert acc p.1 v) args leftover h
              refine ⟨?_, ?_, ?_⟩
              · intro name w hm
                rcases c1 name w hm with ⟨w2, hw2⟩ | h'
                · rcases pyDictInsert_mem_of hw2 with hin | heq
                  · exact Or.inl ⟨w2, hin⟩
                  · exact Or.inr (by simp [heq])
                · exact Or.inr (by simp [h'])
              · intro name info hmem hcon
                rcases List.mem_cons.mp hmem with heq | hmem'
                · have hn : name = p.1 := congrArg Prod.fst heq
                  have hself := pyDictInsert_self acc p.1 v
                  obtain ⟨w, hw⟩ := c3 p.1 v hself
                  exact ⟨w, hn ▸ hw⟩
                · exact c2 name info hmem' hcon
              · intro name w hm
                obtain ⟨w2, hw2⟩ := pyDictInsert_preserves_key p.1 v hm
                exact c3 name w2 hw2

/-! ### Claim theorems -/

/-- C9: for every input schema that is empty or lacks a top-level
`"properties"` key, `build_arguments_from_schema` returns the empty
mapping, without consuming any input line and without error. -/
theorem buildArguments_no_properties {α : Type} (jp : String → Option α)
    (req : List String) (inputs : List String) :
    buildArgumentsFromSchema jp { properties := none, required := req } inputs
      = some ([], inputs) := rfl

/-- C10: a fresh capability listing with no tools, no resources and no
resource templates terminates the session loop at once with the
no-capabilities message — no menu (and no exit ordinal) is shown and no
input is read — and the listing step terminates only in that case. -/
theorem empty_listing_terminates :
    listCapabilitiesStep [] [] [] = IterationOutcome.terminated [noCapabilitiesMessage]
    ∧ ∀ t r m : List String,
        (listCapabilitiesStep t r m).isTerminated = true ↔ (t = [] ∧ r = [] ∧ m = []) := by
  refine ⟨rfl, ?_⟩
  intro t r m
  unfold listCapabilitiesStep
  split
  · simp_all [IterationOutcome.isTerminated]
  · simp_all [IterationOutcome.isTerminated]

/-- C8: a tool result with the error flag set is rendered as its content
items plus the visible error indicator, and the loop control after the
branch is the same as for a non-error result (decided solely by the
follow-up prompt), so the flag is never turned into a local exception. -/
theorem tool_error_displayed_not_raised (r : ToolCallResult) (c : String)
    (herr : r.isError = true) :
    errorIndicatorLine ∈ (toolInvocationStep r c).1
    ∧ (∀ item ∈ r.content, renderItem item ∈ (toolInvocationStep r c).1)
    ∧ (toolInvocationStep r c).2
        = (toolInvocationStep { content := r.content, isError := false } c).2 := by
  refine ⟨?_, ?_, rfl⟩
  · simp [toolInvocationStep, renderToolResult, herr]
  · intro item hitem
    have hc : r.content ≠ [] := by
      intro h
      rw [h] at hitem
      simp at hitem
    simp only [toolInvocationStep, renderToolResult, if_neg hc, herr, if_pos]
    exact List.mem_append_left _ (List.mem_map_of_mem renderItem hitem)

/-- Witness for C8 at a concrete error result. -/
theorem tool_error_displayed_not_raised_witness :
    errorIndicatorLine ∈ (toolInvocationStep ⟨[ContentItem.textItem "boom"], true⟩ "").1
    ∧ renderItem (ContentItem.textItem "boom")
        ∈ (toolInvocationStep ⟨[ContentItem.textItem "boom"], true⟩ "").1
    ∧ (toolInvocationStep ⟨[ContentItem.textItem "boom"], true⟩ "").2
        = LoopControl.nextIteration := by
  have h := tool_error_displayed_not_raised ⟨[ContentItem.textItem "boom"], true⟩ "" rfl
  exact ⟨h.1, h.2.1 _ (List.mem_cons_self _ _), by decide⟩

/-- C5: a non-empty input whose coercion fails (malformed integer, float
or structured text) makes the per-parameter loop re-prompt the same
parameter on the next input line; the failure is consumed locally, the
build is not aborted and no exception escapes (the loop is a total
function here). -/
theorem promptParam_coercion_failure_reprompts {α : Type} (jp : String → Option α)
    (t : String) (isReq : Bool) (raw : String) (rest : List String)
    (hne : pyStrip raw ≠ "") (hfail : coerce jp t (pyStrip raw) = none) :
    promptParam jp t isReq (raw :: rest) = promptParam jp t isReq rest := by
  simp [promptParam, hne, hfail]

/-- Witness for C5: a malformed integer input is retried and the build of
that parameter then succeeds on the next line. -/
theorem promptParam_coercion_failure_reprompts_witness :
    pyStrip "abc" ≠ ""
    ∧ coerce (fun _ => (none : Option Unit)) "integer" (pyStrip "abc") = none
    ∧ promptParam (fun _ => (none : Option Unit)) "integer" true ["abc", "7"]
        = promptParam (fun _ => (none : Option Unit)) "integer" true ["7"]
    ∧ promptParam (fun _ => (none : Option Unit)) "integer" true ["7"]
        = some (some (PyValue.vint 7), []) := by
  refine ⟨by decide, by decide, ?_, by decide⟩
  exact promptParam_coercion_failure_reprompts _ _ _ _ _ (by decide) (by decide)

/-- C3: the argument builder coerces a non-empty input by the declared
type: `integer` parses base-10 (`"42"` gives the integer 42), `number`
parses as a float (`"3.14"` gives 3.14), `boolean` is true exactly when
the lowercased input is one of `true`, `yes`, `1`, `y` (so `"yes"` gives
true and `"no"` gives false), `object` and `array` hand the input to the
structured-data parser, and any other declared type stores the input
verbatim as text. -/
theorem coerce_by_declared_type {α : Type} (jp : String → Option α) :
    coerce jp "integer" "42" = some (PyValue.vint 42)
    ∧ coerce jp "number" "3.14" = some (PyValue.vfloat (157 / 50 : ℚ))
    ∧ coerce jp "boolean" "yes" = some (PyValue.vbool true)
    ∧ coerce jp "boolean" "no" = some (PyValue.vbool false)
    ∧ (∀ s : String, pyLower s ∈ (["true", "yes", "1", "y"] : List String) →
        coerce jp "boolean" s = some (PyValue.vbool true))
    ∧ (∀ s : String, pyLower s ∉ (["true", "yes", "1", "y"] : List String) →
        coerce jp "boolean" s = some (PyValue.vbool false))
    ∧ (∀ (s : String) (j : α), jp s = some j →
        coerce jp "object" s = some (PyValue.vjson j)
        ∧ coerce jp "array" s = some (PyValue.vjson j))
    ∧ (∀ t s : String,
        t ∉ (["integer", "number", "boolean", "object", "array"] : List String) →
        coerce jp t s = some (PyValue.vstr s)) := by
  refine ⟨rfl, ?_, rfl, rfl, ?_, ?_, ?_, ?_⟩
  · simp [coerce, pyParseFloat, parseUnsigned, parseExpTail, digitsToNat,
      List.takeWhile, List.dropWhile]
    norm_num
  · intro s hs
    have hc : (["true", "yes", "1", "y"] : List String).contains (pyLower s) = true :=
      List.elem_eq_true_of_mem hs
    show some (PyValue.vbool
      ((["true", "yes", "1", "y"] : List String).contains (pyLower s))) = _
    rw [hc]
  · intro s hs
    have hc : (["true", "yes", "1", "y"] : List String).contains (pyLower s) = false := by
      cases hcc : (["true", "yes", "1", "y"] : List String).contains (pyLower s)
      · rfl
      · exact absurd (List.mem_of_elem_eq_true hcc) hs
    show some (PyValue.vbool
      ((["true", "yes", "1", "y"] : List String).contains (pyLower s))) = _
    rw [hc]
  · intro s j hj
    constructor <;> simp [coerce, hj]
  · intro t s ht
    simp only [List.mem_cons, not_or] at ht
    obtain ⟨h1, h2, h3, h4, h5, _⟩ := ht
    simp [coerce, h1, h2, h3, h4, h5]

/-- Witness for C3 at concrete inputs for each branch kind. -/
theorem coerce_by_declared_type_witness :
    coerce (fun _ => some ()) "number" "3.14" = some (PyValue.vfloat (157 / 50 : ℚ))
    ∧ coerce (fun _ => some ()) "boolean" "TRUE" = some (PyValue.vbool true)
    ∧ coerce (fun _ => some ()) "boolean" "maybe" = some (PyValue.vbool false)
    ∧ coerce (fun _ => some ()) "object" "x" = some (PyValue.vjson ())
    ∧ coerce (fun _ => some ()) "array" "x" = some (PyValue.vjson ())
    ∧ coerce (fun _ => some ()) "string" "42" = some (PyValue.vstr "42") := by
  have h := coerce_by_declared_type (fun _ => some ())
  obtain ⟨-, h2, -, -, h5, h6, h7, h8⟩ := h
  have hobj := h7 "x" () rfl
  exact ⟨h2, h5 "TRUE" (by decide), h6 "maybe" (by decide), hobj.1, hobj.2,
    h8 "string" "42" (by decide)⟩

/-- C4: empty input skips an optional parameter (nothing is stored for it,
not even an empty value) and only re-prompts a required one; whenever the
builder returns, every required declared parameter is present in the
result with a coerced value, and every key of the result comes from a
declared parameter, so a skipped optional parameter is omitted entirely. -/
theorem buildArguments_required_and_optional {α : Type} (jp : String → Option α) :
    (∀ (t raw : String) (rest : List String), pyStrip raw = "" →
        promptParam jp t false (raw :: rest) = some (none, rest)
        ∧ promptParam jp t true (raw :: rest) = promptParam jp t true rest)
    ∧ (∀ (schema : InputSchema) (props : List (String × ParamInfo))
        (inputs leftover : List String) (args : List (String × PyValue α)),
        schema.properties = some props →
        buildArgumentsFromSchema jp schema inputs = some (args, leftover) →
        (∀ name info, (name, info) ∈ props → schema.required.contains name = true →
            ∃ v, (name, v) ∈ args)
        ∧ (∀ name v, (name, v) ∈ args → name ∈ props.map Prod.fst)) := by
  constructor
  · intro t raw rest h
    exact ⟨by simp [promptParam, h], by simp [promptParam, h]⟩
  · intro schema props inputs leftover args hp hb
    simp only [buildArgumentsFromSchema, hp] at hb
    obtain ⟨c1, c2, _⟩ := buildLoop_spec jp props schema.required inputs [] args leftover hb
    refine ⟨c2, fun name v hm => ?_⟩
    rcases c1 name v hm with ⟨w, hw⟩ | h'
    · simp at hw
    · exact h'

/-- Witness for C4: a schema with required `a` and optional `b`; `a` is
re-prompted past an empty line, `b` gets an empty line and is omitted from
the result. -/
theorem buildArguments_required_and_optional_witness :
    promptParam (fun _ => (none : Option Unit)) "string" false ["", "x"] = some (none, ["x"])
    ∧ buildArgumentsFromSchema (fun _ => (none : Option Unit))
        ⟨some [("a", ⟨some "integer", none⟩), ("b", ⟨none, none⟩)], ["a"]⟩ ["", "5", ""]
        = some ([("a", PyValue.vint 5)], [])
    ∧ ∃ v, ("a", v) ∈ ([("a", PyValue.vint 5)] : List (String × PyValue Unit)) := by
  have h := buildArguments_required_and_optional (fun _ => (none : Option Unit))
  refine ⟨(h.1 "string" "" ["x"] (by decide)).1, by decide, ?_⟩
  exact (h.2 ⟨some [("a", ⟨some "integer", none⟩), ("b", ⟨none, none⟩)], ["a"]⟩
    [("a", ⟨some "integer", none⟩), ("b", ⟨none, none⟩)] ["", "5", ""] []
    [("a", PyValue.vint 5)] rfl (by decide)).1 "a" ⟨some "integer", none⟩
    (List.mem_cons_self _ _) (by decide)

/-- C7: if the user supplies an empty value for any placeholder prompt of
a template, resolution of that invocation fails (`none`): nothing is
substituted, no resource read is issued, and control falls through to the
next listing iteration. -/
theorem resolveTemplate_empty_value_aborts (t : String) (inputs : List String) (i : Nat)
    (hi : i < (findAllPlaceholders t).length)
    (he : pyStrip (inputs.getD i "") = "") :
    resolveTemplate t inputs = none := by
  simp only [resolveTemplate]
  have hlt := collectLoop_length_lt (findAllPlaceholders t) inputs [] i hi he
  rw [if_neg]
  simp only [List.length_nil] at hlt
  omega

/-- Witness for C7: an empty value for `tmdbId` aborts the resolution. -/
theorem resolveTemplate_empty_value_aborts_witness :
    0 < (findAllPlaceholders "movies/\x7btmdbId\x7d/cast").length
    ∧ pyStrip ([""].getD 0 "") = ""
    ∧ resolveTemplate "movies/\x7btmdbId\x7d/cast" [""] = none := by
  exact ⟨by decide, by decide,
    resolveTemplate_empty_value_aborts _ [""] 0 (by decide) (by decide)⟩

/-- C1 counterexample: in the template `movies/\x7btmdbId\x7d/\x7btmdbId\x7d`
the one distinct placeholder name occurs twice; the extraction used for
prompting returns one entry per occurrence (the user is prompted twice,
not once), and resolution fails even though a non-empty value is supplied
for the distinct name at every prompt, because the collected dict has
fewer entries than the occurrence list. -/
theorem duplicate_placeholder_counterexample :
    findAllPlaceholders "movies/\x7btmdbId\x7d/\x7btmdbId\x7d" = ["tmdbId", "tmdbId"]
    ∧ resolveTemplate "movies/\x7btmdbId\x7d/\x7btmdbId\x7d" ["603", "603"] = none := by
  exact ⟨by decide, by decide⟩

/-- C1 (amended): the prompt list is one prompt per placeholder
occurrence, in template order; when the occurrences are pairwise distinct
that list is exactly the distinct names in order of first appearance, and
resolution succeeds whenever a non-empty value is supplied at each
prompt. -/
theorem resolveTemplate_distinct_success (t : String) (inputs : List String)
    (hnd : (findAllPlaceholders t).Nodup)
    (hne : ∀ i, i < (findAllPlaceholders t).length → pyStrip (inputs.getD i "") ≠ "") :
    ∃ uri, resolveTemplate t inputs = some uri := by
  refine ⟨substUri t (collectLoop (findAllPlaceholders t) inputs []), ?_⟩
  simp only [resolveTemplate]
  rw [collectLoop_length_of_nodup _ inputs [] hnd (by simp) hne]
  simp

/-- Witness for C1 at the concrete template of the spec. -/
theorem resolveTemplate_distinct_success_witness :
    (findAllPlaceholders "movies/\x7btmdbId\x7d/cast").Nodup
    ∧ ∃ uri, resolveTemplate "movies/\x7btmdbId\x7d/cast" ["603"] = some uri := by
  refine ⟨by decide, resolveTemplate_distinct_success _ ["603"] (by decide) ?_⟩
  intro i hi
  have h1 : (findAllPlaceholders "movies/\x7btmdbId\x7d/cast").length = 1 := by decide
  rw [h1] at hi
  have h0 : i = 0 := by omega
  subst h0
  decide

/-- C6: substitution is literal text replacement of each `\x7bname\x7d`
occurrence by the resolved value, with no escaping or URL-encoding: the
spec template `movies/\x7btmdbId\x7d/cast` resolves with any non-empty
stripped value `v` to `movies/` ++ v ++ `/cast` (so `"603"` yields
`movies/603/cast`), and a value for a twice-occurring placeholder is
injected verbatim at both occurrences by the substitution loop. -/
theorem template_substitution_literal (v : String)
    (hs : pyStrip v = v) (hne : v ≠ "") :
    resolveTemplate "movies/\x7btmdbId\x7d/cast" [v] = some ("movies/" ++ v ++ "/cast")
    ∧ substUri "a/\x7bx\x7d/b/\x7bx\x7d" [("x", v)] = "a/" ++ v ++ "/b/" ++ v := by
  constructor
  · have hfa : findAllPlaceholders "movies/\x7btmdbId\x7d/cast" = ["tmdbId"] := rfl
    have hcl : collectLoop ["tmdbId"] [v] [] = [("tmdbId", v)] := by
      simp only [collectLoop, List.headD_cons, hs]
      rw [if_neg hne]
      rfl
    simp only [resolveTemplate, hfa, hcl]
    rw [if_pos (show [("tmdbId", v)].length = ["tmdbId"].length from rfl)]
    rfl
  · apply String.ext
    show ('a' :: '/' :: (v.data ++ ('/' :: 'b' :: '/' :: (v.data ++ [])))) = _
    simp

/-- Witness for C6 at the concrete value of the spec example. -/
theorem template_substitution_literal_witness :
    pyStrip "603" = "603"
    ∧ resolveTemplate "movies/\x7btmdbId\x7d/cast" ["603"] = some "movies/603/cast"
    ∧ substUri "a/\x7bx\x7d/b/\x7bx\x7d" [("x", "603")] = "a/603/b/603" := by
  have h := template_substitution_literal "603" (by decide) (by decide)
  exact ⟨by decide, h.1, h.2⟩

/-- C2: the dispatcher maps the stripped selection as the listing
displays it: `"0"` or empty input exits; an ordinal `n` with
`1 <= n <= T` calls the `n`-th tool, `T < n <= T+R` reads the `(n-T)`-th
direct resource, `T+R < n <= T+R+M` resolves the `(n-T-R)`-th template;
non-numeric input and ordinals outside `[0, T+R+M]` only show an error
and return to the listing. -/
theorem dispatchChoice_ordinal_ranges (T R M : Nat) (raw : String) :
    ((pyStrip raw = "0" ∨ pyStrip raw = "") → dispatchChoice T R M raw = Selection.exitLoop)
    ∧ (∀ n : Nat, pyParseInt (pyStrip raw) = some (n : Int) → 1 ≤ n → n ≤ T →
        dispatchChoice T R M raw = Selection.callTool (n - 1))
    ∧ (∀ n : Nat, pyParseInt (pyStrip raw) = some (n : Int) → T < n → n ≤ T + R →
        dispatchChoice T R M raw = Selection.readResource (n - 1 - T))
    ∧ (∀ n : Nat, pyParseInt (pyStrip raw) = some (n : Int) → T + R < n → n ≤ T + R + M →
        dispatchChoice T R M raw = Selection.readTemplate (n - 1 - T - R))
    ∧ (pyParseInt (pyStrip raw) = none → pyStrip raw ≠ "" →
        dispatchChoice T R M raw = Selection.invalidInput)
    ∧ (∀ n : Int, pyParseInt (pyStrip raw) = some n →
        (n < 0 ∨ (T + R + M : Int) < n) →
        dispatchChoice T R M raw = Selection.invalidSelection) := by
  have hzero : pyParseInt "0" = some 0 := rfl
  have hempty : pyParseInt "" = none := rfl
  refine ⟨?_, ?_, ?_, ?_, ?_, ?_⟩
  · intro h
    simp only [dispatchChoice, if_pos h]
  · intro n hp h1 h2
    have hg : ¬(pyStrip raw = "0" ∨ pyStrip raw = "") := by
      rintro (h | h) <;> rw [h] at hp
      · rw [hzero] at hp
        have : (0 : Int) = (n : Int) := Option.some_inj.mp hp
        omega
      · rw [hempty] at hp
        exact Option.noConfusion hp
    simp only [dispatchChoice, if_neg hg, hp]
    rw [if_neg (by omega), if_pos (by omega)]
    congr 1
    omega
  · intro n hp h1 h2
    have hg : ¬(pyStrip raw = "0" ∨ pyStrip raw = "") := by
      rintro (h | h) <;> rw [h] at hp
      · rw [hzero] at hp
        have : (0 : Int) = (n : Int) := Option.some_inj.mp hp
        omega
      · rw [hempty] at hp
        exact Option.noConfusion hp
    simp only [dispatchChoice, if_neg hg, hp]
    rw [if_neg (by omega), if_neg (by omega), if_pos (by omega)]
    congr 1
    omega
  · intro n hp h1 h2
    have hg : ¬(pyStrip raw = "0" ∨ pyStrip raw = "") := by
      rintro (h | h) <;> rw [h] at hp
      · rw [hzero] at hp
        have : (0 : Int) = (n : Int) := Option.some_inj.mp hp
        omega
      · rw [hempty] at hp
        exact Option.noConfusion hp
    simp only [dispatchChoice, if_neg hg, hp]
    rw [if_neg (by omega), if_neg (by omega), if_neg (by omega)]
    congr 1
    omega
  · intro hp hne
    have hg : ¬(pyStrip raw = "0" ∨ pyStrip raw = "") := by
      rintro (h | h)
      · rw [h, hzero] at hp
        exact Option.noConfusion hp
      · exact hne h
    simp only [dispatchChoice, if_neg hg, hp]
  · intro n hp hout
    have hg : ¬(pyStrip raw = "0" ∨ pyStrip raw = "") := by
      rintro (h | h) <;> rw [h] at hp
      · rw [hzero] at hp
        have h0 : (0 : Int) = n := Option.some_inj.mp hp
        have hTRM : (0 : Int) ≤ ((T : Int) + R + M) := by positivity
        omega
      · rw [hempty] at hp
        exact Option.noConfusion hp
    simp only [dispatchChoice, if_neg hg, hp]
    rw [if_pos (by omega)]

/-- Witness for C2 at the spec's 2-tools/1-resource/1-template listing. -/
theorem dispatchChoice_ordinal_ranges_witness :
    pyParseInt (pyStrip "3") = some (3 : Int)
    ∧ dispatchChoice 2 1 1 "3" = Selection.readResource 0
    ∧ dispatchChoice 2 1 1 "0" = Selection.exitLoop
    ∧ dispatchChoice 2 1 1 "5" = Selection.invalidSelection := by
  refine ⟨by decide, ?_, ?_, ?_⟩
  · have h := (dispatchChoice_ordinal_ranges 2 1 1 "3").2.2.1 3 (by decide)
      (by decide) (by decide)
    simpa using h
  · exact (dispatchChoice_ordinal_ranges 2 1 1 "0").1 (Or.inl (by decide))
  · exact (dispatchChoice_ordinal_ranges 2 1 1 "5").2.2.2.2.2 5 (by decide) (by decide)
